import Mathlib

/-
Shallow embedding of src/index.js from eslint-plugin-purescript-ffi.

The file exports two ESLint rules.  Each rule object carries a message
catalog (meta.messages) and a create function returning a record of
visitor callbacks, one per syntax-node kind.  The host framework invokes
the callback once per node of that kind; a callback either calls
context.report with a messageId and placeholder data, or does nothing.

We embed each rule as a function from a visited node to the list of
diagnostics its callbacks report for that node (the empty list for node
kinds the rule does not register).  Because the no-local-imports rule can
call String.prototype.startsWith on a non-string value (a JavaScript
TypeError), its visitor is embedded in Except, with an error standing for
a thrown exception.
-/

/-- JavaScript values as they occur in the syntax tree positions the rules
inspect: the value field of a Literal node and the source value of
an import declaration. -/
inductive JSValue where
  | str (s : String)
  | num (n : Int)
  | bool (b : Bool)
  | null
  | undefined
deriving DecidableEq, Repr

/-- JavaScript truthiness test, as used by the guard if (!source) in
isLocalImport: empty string, 0, false, null and undefined are falsy. -/
def JSValue.falsy : JSValue → Bool
  | .str s => s = ""
  | .num n => n = 0
  | .bool b => !b
  | .null => true
  | .undefined => true

/-- JavaScript String() coercion, used when a value is interpolated into a
message template as placeholder data. -/
def JSValue.toDataString : JSValue → String
  | .str s => s
  | .num n => toString n
  | .bool true => "true"
  | .bool false => "false"
  | .null => "null"
  | .undefined => "undefined"

/-- JavaScript String.prototype.startsWith on well-formed strings:
jsStartsWith s p is true when p is a prefix of s. -/
def jsStartsWith (s p : String) : Bool := List.isPrefixOf p.data s.data

/-- A thrown JavaScript exception.  The only throw reachable in this code
is calling .startsWith on a value that does not have that method. -/
inductive JSError where
  | typeError
deriving DecidableEq, Repr

/-- Expressions, restricted to the shapes the two rules distinguish: the
rules look at callee and property node types, identifier names, Literal
values and nothing else.  Any other expression form is otherExpr.
The computed flag of a member expression is carried because the syntax
tree has it, although the source never reads it. -/
inductive Expr where
  | identifier (name : String)
  | literal (value : JSValue)
  | member (object : Expr) (property : Expr) (computed : Bool)
  | otherExpr
deriving DecidableEq, Repr

/-- Visited syntax-tree nodes, one constructor per node kind at least one
rule registers, carrying exactly the fields the callbacks read.  A
function declaration carries its optional identifier name and the type
tag of its immediate parent node; a call expression carries its callee
and argument list; import declarations carry the source literal value;
dynamic import expressions carry their source operand. -/
inductive Node where
  | functionDeclaration (id : Option String) (parentType : String)
  | ifStatement
  | forStatement
  | forInStatement
  | forOfStatement
  | whileStatement
  | doWhileStatement
  | conditionalExpression
  | switchStatement
  | callExpression (callee : Expr) (args : List Expr)
  | importDeclaration (sourceValue : JSValue)
  | importExpression (source : Expr)
  | otherNode
deriving DecidableEq, Repr

/-- A reported diagnostic: the messageId passed to context.report and the
placeholder data mapping.  The offending node is the visited node itself,
so it is not repeated here. -/
structure Diagnostic where
  messageId : String
  data : List (String × String)
deriving DecidableEq, Repr

/-- The ARRAY_METHODS constant of src/index.js. -/
def ARRAY_METHODS : List String :=
  ["map", "filter", "reduce", "findIndex", "find", "some", "every", "flatMap"]

/-- The message catalog keys of the no-logic-in-ffi rule (meta.messages). -/
def noLogicInFfiMessageIds : List String :=
  ["noHelperFunctions", "noIfStatements", "noLoops", "noTernary",
   "noSwitch", "noArrayMethods", "noComplexCatch"]

/-- The message catalog keys of the no-local-imports rule (meta.messages). -/
def noLocalImportsMessageIds : List String :=
  ["noLocalImport", "noLocalRequire", "noLocalDynamicImport"]

/-- Evaluation of node.id?.name || "anonymous": the name when the
identifier is present and its name is truthy, the literal "anonymous"
otherwise. -/
def helperNameOf (id : Option String) : String :=
  match id with
  | some n => if n = "" then "anonymous" else n
  | none => "anonymous"

/-- The isLocalImport closure of the no-local-imports rule: a falsy source
is not local; a truthy string is local when it starts with ./ or ../;
calling .startsWith on a truthy non-string throws a TypeError. -/
def isLocalImport (source : JSValue) : Except JSError Bool :=
  if source.falsy then .ok false
  else
    match source with
    | .str s => .ok (jsStartsWith s "./" || jsStartsWith s "../")
    | _ => .error .typeError

/-- The visitor record returned by create of the no-logic-in-ffi rule, as
a function from a visited node to the diagnostics reported for it. -/
def noLogicInFfi (node : Node) : List Diagnostic :=
  match node with
  | .functionDeclaration id parentType =>
      if parentType ≠ "ExportNamedDeclaration" ∧
         parentType ≠ "ExportDefaultDeclaration" then
        [⟨"noHelperFunctions", [("name", helperNameOf id)]⟩]
      else []
  | .ifStatement => [⟨"noIfStatements", []⟩]
  | .forStatement => [⟨"noLoops", []⟩]
  | .forInStatement => [⟨"noLoops", []⟩]
  | .forOfStatement => [⟨"noLoops", []⟩]
  | .whileStatement => [⟨"noLoops", []⟩]
  | .doWhileStatement => [⟨"noLoops", []⟩]
  | .conditionalExpression => [⟨"noTernary", []⟩]
  | .switchStatement => [⟨"noSwitch", []⟩]
  | .callExpression callee _ =>
      match callee with
      | .member _ (.identifier name) _ =>
          if name ∈ ARRAY_METHODS then
            [⟨"noArrayMethods", [("method", name)]⟩]
          else []
      | _ => []
  | _ => []

/-- The visitor record returned by create of the no-local-imports rule, as
a function from a visited node to the diagnostics reported for it, or a
thrown exception. -/
def noLocalImports (node : Node) : Except JSError (List Diagnostic) :=
  match node with
  | .importDeclaration sourceValue =>
      match isLocalImport sourceValue with
      | .error e => .error e
      | .ok true =>
          .ok [⟨"noLocalImport", [("source", sourceValue.toDataString)]⟩]
      | .ok false => .ok []
  | .callExpression (.identifier calleeName) args =>
      if calleeName = "require" then
        match args with
        | .literal v :: _ =>
            match isLocalImport v with
            | .error e => .error e
            | .ok true =>
                .ok [⟨"noLocalRequire", [("source", v.toDataString)]⟩]
            | .ok false => .ok []
        | _ => .ok []
      else .ok []
  | .importExpression (.literal v) =>
      match isLocalImport v with
      | .error e => .error e
      | .ok true =>
          .ok [⟨"noLocalDynamicImport", [("source", v.toDataString)]⟩]
      | .ok false => .ok []
  | _ => .ok []

/-- C1: isLocalImport classifies a specifier as Local exactly when it is a
non-empty string starting with ./ or ../; in particular ./a and ../a/b are
Local while fs, pdf-lib, node:crypto, the empty string and undefined are
not. -/
theorem isLocalImport_local_iff :
    (∀ v : JSValue, isLocalImport v = Except.ok true ↔
      ∃ s, v = JSValue.str s ∧ s ≠ "" ∧
        (jsStartsWith s "./" = true ∨ jsStartsWith s "../" = true)) ∧
    isLocalImport (.str "./a") = .ok true ∧
    isLocalImport (.str "../a/b") = .ok true ∧
    isLocalImport (.str "fs") = .ok false ∧
    isLocalImport (.str "pdf-lib") = .ok false ∧
    isLocalImport (.str "node:crypto") = .ok false ∧
    isLocalImport (.str "") = .ok false ∧
    isLocalImport .undefined = .ok false := by
  refine ⟨?_, rfl, rfl, rfl, rfl, rfl, rfl, rfl⟩
  intro v
  cases v with
  | str s =>
      constructor
      · intro h
        by_cases hs : s = ""
        · subst hs; simp [isLocalImport, JSValue.falsy] at h
        · refine ⟨s, rfl, hs, ?_⟩
          simp [isLocalImport, JSValue.falsy, hs] at h
          exact h
      · rintro ⟨t, ht, hne, hstart⟩
        obtain rfl : s = t := by injection ht
        rcases hstart with h1 | h1 <;>
          simp [isLocalImport, JSValue.falsy, hne, h1]
  | num n =>
      constructor
      · intro h
        by_cases hn : n = 0 <;> simp [isLocalImport, JSValue.falsy, hn] at h
      · rintro ⟨t, ht, -, -⟩; exact JSValue.noConfusion ht
  | bool b =>
      constructor
      · intro h
        cases b <;> simp [isLocalImport, JSValue.falsy] at h
      · rintro ⟨t, ht, -, -⟩; exact JSValue.noConfusion ht
  | null =>
      constructor
      · intro h; simp [isLocalImport, JSValue.falsy] at h
      · rintro ⟨t, ht, -, -⟩; exact JSValue.noConfusion ht
  | undefined =>
      constructor
      · intro h; simp [isLocalImport, JSValue.falsy] at h
      · rintro ⟨t, ht, -, -⟩; exact JSValue.noConfusion ht

/-- C4: every if statement, the five loop forms, ternary expression and
switch statement each produce exactly one diagnostic of the matching
message kind, unconditionally. -/
theorem control_flow_always_reported :
    noLogicInFfi .ifStatement = [⟨"noIfStatements", []⟩] ∧
    noLogicInFfi .forStatement = [⟨"noLoops", []⟩] ∧
    noLogicInFfi .forInStatement = [⟨"noLoops", []⟩] ∧
    noLogicInFfi .forOfStatement = [⟨"noLoops", []⟩] ∧
    noLogicInFfi .whileStatement = [⟨"noLoops", []⟩] ∧
    noLogicInFfi .doWhileStatement = [⟨"noLoops", []⟩] ∧
    noLogicInFfi .conditionalExpression = [⟨"noTernary", []⟩] ∧
    noLogicInFfi .switchStatement = [⟨"noSwitch", []⟩] :=
  ⟨rfl, rfl, rfl, rfl, rfl, rfl, rfl, rfl⟩

/-- C6, evaluation at the failing input: a require call whose first
argument is the numeric literal 42 makes the no-local-imports visitor
throw a TypeError (isLocalImport calls .startsWith on a truthy
non-string) instead of silently passing. -/
theorem require_numeric_literal_throws :
    noLocalImports
      (.callExpression (.identifier "require") [.literal (.num 42)]) =
      .error .typeError := rfl

/-- C7, evaluation at the failing input: a dynamic import whose source is
the numeric literal 1 makes the no-local-imports visitor throw a
TypeError, so that callback invocation yields neither a report nor a
silent pass. -/
theorem dynamic_import_numeric_literal_throws :
    noLocalImports (.importExpression (.literal (.num 1))) =
      .error .typeError := rfl

/-- C9, counterexample: a computed member call whose property is an
Identifier node, as in x[map](...), IS reported by the array-method
check, so it is not true that only non-computed identifier property
access is ever reported. -/
theorem computed_identifier_property_reported :
    noLogicInFfi
      (.callExpression (.member (.identifier "x") (.identifier "map") true)
        []) =
      [⟨"noArrayMethods", [("method", "map")]⟩] := by decide

/-- C10: the bare specifiers . and .. are not Local, and an import,
require or dynamic import of exactly . or .. produces zero diagnostics. -/
theorem bare_dot_specifiers_not_local :
    isLocalImport (.str ".") = .ok false ∧
    isLocalImport (.str "..") = .ok false ∧
    noLocalImports (.importDeclaration (.str ".")) = .ok [] ∧
    noLocalImports (.importDeclaration (.str "..")) = .ok [] ∧
    noLocalImports
      (.callExpression (.identifier "require") [.literal (.str ".")]) =
      .ok [] ∧
    noLocalImports
      (.callExpression (.identifier "require") [.literal (.str "..")]) =
      .ok [] ∧
    noLocalImports (.importExpression (.literal (.str "."))) = .ok [] ∧
    noLocalImports (.importExpression (.literal (.str ".."))) = .ok [] :=
  ⟨rfl, rfl, rfl, rfl, rfl, rfl, rfl, rfl⟩

/-- C2: a function declaration whose immediate parent is neither an
export-named nor an export-default declaration produces exactly one
noHelperFunctions diagnostic carrying the function name, with the literal
anonymous when no identifier is present; a function declaration whose
parent is an export declaration produces no diagnostic. -/
theorem helper_function_report (id : Option String) (pt : String) :
    (pt ≠ "ExportNamedDeclaration" ∧ pt ≠ "ExportDefaultDeclaration" →
      noLogicInFfi (.functionDeclaration id pt) =
        [⟨"noHelperFunctions", [("name", helperNameOf id)]⟩]) ∧
    (pt = "ExportNamedDeclaration" ∨ pt = "ExportDefaultDeclaration" →
      noLogicInFfi (.functionDeclaration id pt) = []) ∧
    (∀ n, id = some n → n ≠ "" → helperNameOf id = n) ∧
    (id = none → helperNameOf id = "anonymous") := by
  refine ⟨?_, ?_, ?_, ?_⟩
  · intro h
    simp [noLogicInFfi, h.1, h.2]
  · intro h
    rcases h with h | h <;> simp [noLogicInFfi, h]
  · rintro n rfl hn
    simp [helperNameOf, hn]
  · rintro rfl
    rfl

/-- C2 witness at concrete inputs. -/
theorem helper_function_report_witness :
    noLogicInFfi (.functionDeclaration (some "helper") "Program") =
      [⟨"noHelperFunctions", [("name", helperNameOf (some "helper"))]⟩] ∧
    noLogicInFfi
      (.functionDeclaration (some "f") "ExportNamedDeclaration") = [] ∧
    helperNameOf (some "helper") = "helper" ∧
    helperNameOf none = "anonymous" :=
  ⟨(helper_function_report (some "helper") "Program").1
      ⟨by decide, by decide⟩,
   (helper_function_report (some "f") "ExportNamedDeclaration").2.1
      (Or.inl rfl),
   (helper_function_report (some "helper") "Program").2.2.1 "helper" rfl
      (by decide),
   (helper_function_report none "Program").2.2.2 rfl⟩

/-- C3: a call whose callee is a non-computed member access with property
name in the ARRAY_METHODS set produces exactly one noArrayMethods
diagnostic carrying that method name; with any other property name it
produces no diagnostic. -/
theorem array_method_report (obj : Expr) (name : String) (args : List Expr) :
    (name ∈ ARRAY_METHODS →
      noLogicInFfi
        (.callExpression (.member obj (.identifier name) false) args) =
        [⟨"noArrayMethods", [("method", name)]⟩]) ∧
    (name ∉ ARRAY_METHODS →
      noLogicInFfi
        (.callExpression (.member obj (.identifier name) false) args) =
        []) := by
  constructor
  · intro h
    simp [noLogicInFfi, h]
  · intro h
    simp [noLogicInFfi, h]

/-- C3 witness at concrete inputs. -/
theorem array_method_report_witness :
    noLogicInFfi
      (.callExpression
        (.member (.identifier "items") (.identifier "map") false) []) =
      [⟨"noArrayMethods", [("method", "map")]⟩] ∧
    noLogicInFfi
      (.callExpression
        (.member (.identifier "items") (.identifier "push") false) []) =
      [] :=
  ⟨(array_method_report (.identifier "items") "map" []).1 (by decide),
   (array_method_report (.identifier "items") "push" []).2 (by decide)⟩

/-- C5: each import mechanism with a Local specifier maps to its own
message key carrying the specifier text: static import to noLocalImport,
require call to noLocalRequire, dynamic import to noLocalDynamicImport,
each with data source equal to the literal specifier. -/
theorem local_import_message_keys (s : String) (rest : List Expr)
    (h : isLocalImport (.str s) = .ok true) :
    noLocalImports (.importDeclaration (.str s)) =
      .ok [⟨"noLocalImport", [("source", s)]⟩] ∧
    noLocalImports
      (.callExpression (.identifier "require")
        (.literal (.str s) :: rest)) =
      .ok [⟨"noLocalRequire", [("source", s)]⟩] ∧
    noLocalImports (.importExpression (.literal (.str s))) =
      .ok [⟨"noLocalDynamicImport", [("source", s)]⟩] := by
  refine ⟨?_, ?_, ?_⟩ <;> simp [noLocalImports, h, JSValue.toDataString]

/-- C5 witness at the specifier ../x. -/
theorem local_import_message_keys_witness :
    noLocalImports (.importDeclaration (.str "../x")) =
      .ok [⟨"noLocalImport", [("source", "../x")]⟩] ∧
    noLocalImports
      (.callExpression (.identifier "require") [.literal (.str "../x")]) =
      .ok [⟨"noLocalRequire", [("source", "../x")]⟩] ∧
    noLocalImports (.importExpression (.literal (.str "../x"))) =
      .ok [⟨"noLocalDynamicImport", [("source", "../x")]⟩] :=
  local_import_message_keys "../x" [] (by rfl)

/-- C8: the no-logic-in-ffi message catalog declares the key
noComplexCatch, yet no diagnostic produced by either rule ever carries
that messageId. -/
theorem noComplexCatch_never_reported :
    "noComplexCatch" ∈ noLogicInFfiMessageIds ∧
    (∀ node d, d ∈ noLogicInFfi node → d.messageId ≠ "noComplexCatch") ∧
    (∀ node l d, noLocalImports node = .ok l → d ∈ l →
      d.messageId ≠ "noComplexCatch") := by
  refine ⟨by decide, ?_, ?_⟩
  · intro node d h
    cases node with
    | functionDeclaration id pt =>
        simp [noLogicInFfi] at h
        simp [h.2]
    | callExpression callee args =>
        rcases callee with ⟨nm⟩ | ⟨v⟩ | ⟨o, p, c⟩ | _
        · simp [noLogicInFfi] at h
        · simp [noLogicInFfi] at h
        · rcases p with ⟨pn⟩ | ⟨pv⟩ | ⟨po, pp, pc⟩ | _
          · simp [noLogicInFfi] at h
            simp [h.2]
          · simp [noLogicInFfi] at h
          · simp [noLogicInFfi] at h
          · simp [noLogicInFfi] at h
        · simp [noLogicInFfi] at h
    | importDeclaration v => simp [noLogicInFfi] at h
    | importExpression src => simp [noLogicInFfi] at h
    | otherNode => simp [noLogicInFfi] at h
    | ifStatement => simp [noLogicInFfi] at h; simp [h]
    | forStatement => simp [noLogicInFfi] at h; simp [h]
    | forInStatement => simp [noLogicInFfi] at h; simp [h]
    | forOfStatement => simp [noLogicInFfi] at h; simp [h]
    | whileStatement => simp [noLogicInFfi] at h; simp [h]
    | doWhileStatement => simp [noLogicInFfi] at h; simp [h]
    | conditionalExpression => simp [noLogicInFfi] at h; simp [h]
    | switchStatement => simp [noLogicInFfi] at h; simp [h]
  · intro node l d hok hmem
    cases node with
    | importDeclaration v =>
        simp only [noLocalImports] at hok
        split at hok
        · exact Except.noConfusion hok
        · injection hok with h; subst h; simp at hmem; simp [hmem]
        · injection hok with h; subst h; simp at hmem
    | callExpression callee args =>
        rcases callee with ⟨nm⟩ | ⟨v⟩ | ⟨o, p, c⟩ | _
        · simp only [noLocalImports] at hok
          split at hok
          · split at hok
            · split at hok
              · exact Except.noConfusion hok
              · injection hok with h; subst h; simp at hmem; simp [hmem]
              · injection hok with h; subst h; simp at hmem
            · injection hok with h; subst h; simp at hmem
          · injection hok with h; subst h; simp at hmem
        · simp only [noLocalImports] at hok
          injection hok with h; subst h; simp at hmem
        · simp only [noLocalImports] at hok
          injection hok with h; subst h; simp at hmem
        · simp only [noLocalImports] at hok
          injection hok with h; subst h; simp at hmem
    | importExpression src =>
        rcases src with ⟨nm⟩ | ⟨v⟩ | ⟨o, p, c⟩ | _
        · simp only [noLocalImports] at hok
          injection hok with h; subst h; simp at hmem
        · simp only [noLocalImports] at hok
          split at hok
          · exact Except.noConfusion hok
          · injection hok with h; subst h; simp at hmem; simp [hmem]
          · injection hok with h; subst h; simp at hmem
        · simp only [noLocalImports] at hok
          injection hok with h; subst h; simp at hmem
        · simp only [noLocalImports] at hok
          injection hok with h; subst h; simp at hmem
    | functionDeclaration id pt =>
        simp only [noLocalImports] at hok
        injection hok with h; subst h; simp at hmem
    | otherNode =>
        simp only [noLocalImports] at hok
        injection hok with h; subst h; simp at hmem
    | ifStatement =>
        simp only [noLocalImports] at hok
        injection hok with h; subst h; simp at hmem
    | forStatement =>
        simp only [noLocalImports] at hok
        injection hok with h; subst h; simp at hmem
    | forInStatement =>
        simp only [noLocalImports] at hok
        injection hok with h; subst h; simp at hmem
    | forOfStatement =>
        simp only [noLocalImports] at hok
        injection hok with h; subst h; simp at hmem
    | whileStatement =>
        simp only [noLocalImports] at hok
        injection hok with h; subst h; simp at hmem
    | doWhileStatement =>
        simp only [noLocalImports] at hok
        injection hok with h; subst h; simp at hmem
    | conditionalExpression =>
        simp only [noLocalImports] at hok
        injection hok with h; subst h; simp at hmem
    | switchStatement =>
        simp only [noLocalImports] at hok
        injection hok with h; subst h; simp at hmem

/-- C8 witness at concrete diagnostics produced by each rule. -/
theorem noComplexCatch_never_reported_witness :
    (⟨"noIfStatements", []⟩ : Diagnostic).messageId ≠ "noComplexCatch" ∧
    (⟨"noLocalImport", [("source", "./a")]⟩ : Diagnostic).messageId ≠
      "noComplexCatch" :=
  ⟨noComplexCatch_never_reported.2.1 .ifStatement ⟨"noIfStatements", []⟩
      (by decide),
   noComplexCatch_never_reported.2.2 (.importDeclaration (.str "./a"))
      [⟨"noLocalImport", [("source", "./a")]⟩]
      ⟨"noLocalImport", [("source", "./a")]⟩ (by rfl) (by decide)⟩

/-- C9, amended: the array-method check keys solely on the property being
an Identifier node whose name is in ARRAY_METHODS, without consulting the
computed flag: a member call with a non-identifier property (for example
a string-literal key) is never reported, while an identifier property in
the set is reported whether computed or not. -/
theorem array_method_identifier_property_only (obj prop : Expr)
    (computed : Bool) (args : List Expr) :
    ((∀ name, prop ≠ .identifier name) →
      noLogicInFfi (.callExpression (.member obj prop computed) args) =
        []) ∧
    (∀ name, prop = .identifier name → name ∈ ARRAY_METHODS →
      noLogicInFfi (.callExpression (.member obj prop computed) args) =
        [⟨"noArrayMethods", [("method", name)]⟩]) := by
  constructor
  · intro h
    rcases prop with ⟨nm⟩ | ⟨v⟩ | ⟨o, p, c⟩ | _
    · exact absurd rfl (h nm)
    · rfl
    · rfl
    · rfl
  · rintro name rfl hmem
    simp [noLogicInFfi, hmem]

/-- C9 witness: a string-literal computed key in the set is not reported,
while a computed identifier key in the set is. -/
theorem array_method_identifier_property_only_witness :
    noLogicInFfi
      (.callExpression
        (.member (.identifier "x") (.literal (.str "map")) true) []) =
      [] ∧
    noLogicInFfi
      (.callExpression
        (.member (.identifier "y") (.identifier "filter") true) []) =
      [⟨"noArrayMethods", [("method", "filter")]⟩] :=
  ⟨(array_method_identifier_property_only (.identifier "x")
      (.literal (.str "map")) true []).1
      (fun name h => Expr.noConfusion h),
   (array_method_identifier_property_only (.identifier "y")
      (.identifier "filter") true []).2 "filter" rfl (by decide)⟩
